import Mathlib

/-!
Shallow embedding of `function_app.py` (LangChainAF): two Azure Functions
HTTP handlers, `process_document` and `get_answer`, built around LangChain's
`RecursiveCharacterTextSplitter`, a Pinecone vector store and an OpenAI chat
client.  Python strings are modelled as `List Char` where character-level
computation matters (the splitter) and as `String` elsewhere; floating point
similarity scores are modelled as exact rationals; every external collaborator
(body decoding, vector search, chat completion, index management) is an
injectable field of an environment record returning `Except PyError`.
-/

namespace LangChainAF

/-! ## Python string primitives -/

/-- The characters Python `str.strip()` removes: CPython's
`Py_UNICODE_ISSPACE` set, i.e. all Unicode whitespace — U+0009..U+000D,
U+001C..U+001F, U+0020, U+0085 (NEL), U+00A0 (NBSP), U+1680 (Ogham space),
U+2000..U+200A, U+2028, U+2029, U+202F, U+205F and U+3000. -/
def pyIsSpace (c : Char) : Bool :=
  (0x09 ≤ c.toNat && c.toNat ≤ 0x0d) ||
  (0x1c ≤ c.toNat && c.toNat ≤ 0x1f) ||
  c.toNat = 0x20 || c.toNat = 0x85 || c.toNat = 0xa0 ||
  c.toNat = 0x1680 ||
  (0x2000 ≤ c.toNat && c.toNat ≤ 0x200a) ||
  c.toNat = 0x2028 || c.toNat = 0x2029 || c.toNat = 0x202f ||
  c.toNat = 0x205f || c.toNat = 0x3000

/-- Python `str.strip()`: drop whitespace from both ends. -/
def pyStrip (xs : List Char) : List Char :=
  ((xs.dropWhile pyIsSpace).reverse.dropWhile pyIsSpace).reverse

/-- Python `needle in hay` substring test (also models `re.search` with an
escaped pattern). -/
def containsSub (needle : List Char) : List Char → Bool
  | [] => needle.isEmpty
  | c :: rest => needle.isPrefixOf (c :: rest) || containsSub needle rest

/-- Python `len(l) > 1` on a list, evaluated without computing the length. -/
def twoOrMore : List α → Bool
  | _ :: _ :: _ => true
  | _ => false

/-- `list(text)` in Python: the singleton pieces of a string. -/
def singles (t : List Char) : List (List Char) :=
  t.map (fun c => [c])

/-! ## RecursiveCharacterTextSplitter

Embedded from `langchain_text_splitters` (re-exported by
`langchain.text_splitter`, the import used at `function_app.py:6`), as
configured at `function_app.py:47-52`: `chunk_size=1000`, `chunk_overlap=200`,
`length_function=len`, `separators=["\n\n", "\n", " ", ""]`, and the class
defaults `keep_separator=True`, `is_separator_regex=False`,
`strip_whitespace=True`.
-/

/-- One step of Python `re.split` on a literal separator: the pieces of `rest`
between occurrences of `sep`.  `acc` holds the reversed chars of the current
piece; the fuel is an upper bound on the remaining characters (callers pass
`rest.length + 1`, enough because each step consumes at least one char when
`sep ≠ []`). -/
def splitPiecesAux (sep : List Char) : Nat → List Char → List Char → List (List Char)
  | 0, acc, rest => [acc.reverse ++ rest]
  | fuel + 1, acc, rest =>
    if sep.isPrefixOf rest then
      acc.reverse :: splitPiecesAux sep fuel [] (rest.drop sep.length)
    else
      match rest with
      | [] => [acc.reverse]
      | c :: t => splitPiecesAux sep fuel (c :: acc) t

/-- The pieces of `text` between occurrences of `sep` (Python
`re.split("(sep)", text)` without the captured separators). -/
def splitPieces (sep : List Char) (text : List Char) : List (List Char) :=
  splitPiecesAux sep (text.length + 1) [] text

/-- `_split_text_with_regex(text, separator, keep_separator)`: with
`keep_separator=True` the separator is glued onto the start of the piece that
follows it; empty pieces are filtered out. -/
def splitTextWithSep (sep : List Char) (keep : Bool) (text : List Char) :
    List (List Char) :=
  let splits :=
    if sep.isEmpty then singles text
    else
      match splitPieces sep text with
      | [] => []
      | p :: ps => if keep then p :: ps.map (fun q => sep ++ q) else p :: ps
  splits.filter (fun s => !s.isEmpty)

/-- `TextSplitter._join_docs`: join with the separator, strip whitespace
(`strip_whitespace=True` default), and return `None` for an empty result. -/
def joinDocs (docs : List (List Char)) (sep : List Char) : Option (List Char) :=
  let text := pyStrip (List.intercalate sep docs)
  if text.isEmpty then none else some text

/-- The `while` pop loop inside `TextSplitter._merge_splits`: shed leading
pieces of `cur` until the running total is within the overlap budget and the
incoming piece (of length `dLen`) fits. -/
def popLoop (cs co sepLen dLen : Nat) : List (List Char) → Nat → List (List Char) × Nat
  | [], total => ([], total)
  | x :: rest, total =>
    if total > co ||
        (total + dLen + (if (x :: rest).isEmpty then 0 else sepLen) > cs && total > 0) then
      popLoop cs co sepLen dLen rest
        (total - (x.length + (if twoOrMore (x :: rest) then sepLen else 0)))
    else
      (x :: rest, total)

/-- The main loop of `TextSplitter._merge_splits`, state-passing form:
`docs` are the emitted chunks, `cur` the pieces of the chunk being built,
`total` the Python running length counter. -/
def mergeLoop (cs co : Nat) (sep : List Char) :
    List (List Char) → List (List Char) → List (List Char) → Nat → List (List Char)
  | [], docs, cur, _ =>
    match joinDocs cur sep with
    | none => docs
    | some doc => docs ++ [doc]
  | d :: ds, docs, cur, total =>
    if total + d.length + (if cur.isEmpty then 0 else sep.length) > cs then
      let docs' :=
        match (if cur.isEmpty then none else joinDocs cur sep) with
        | none => docs
        | some doc => docs ++ [doc]
      let pt := if cur.isEmpty then (cur, total) else popLoop cs co sep.length d.length cur total
      let cur' := pt.1 ++ [d]
      mergeLoop cs co sep ds docs' cur'
        (pt.2 + d.length + (if twoOrMore cur' then sep.length else 0))
    else
      let cur' := cur ++ [d]
      mergeLoop cs co sep ds docs cur'
        (total + d.length + (if twoOrMore cur' then sep.length else 0))

/-- `TextSplitter._merge_splits(splits, separator)`. -/
def mergeSplits (cs co : Nat) (sep : List Char) (splits : List (List Char)) :
    List (List Char) :=
  mergeLoop cs co sep splits [] [] 0

/-- The separator-selection loop at the top of
`RecursiveCharacterTextSplitter._split_text`: the first separator that is
empty or occurs in the text is chosen, together with the remaining separators
used for recursive re-splitting. -/
def chooseSepAux : List (List Char) → List Char → Option (List Char × List (List Char))
  | [], _ => none
  | s :: rest, text =>
    if s.isEmpty then some ([], [])
    else if containsSub s text then some (s, rest)
    else chooseSepAux rest text

/-- Separator selection with the Python default (`separators[-1]`, no new
separators) when nothing matches — unreachable for the configured separator
list, whose last element is `""`. -/
def chooseSep (seps : List (List Char)) (text : List Char) :
    List Char × List (List Char) :=
  (chooseSepAux seps text).getD ((seps.getLast?).getD [], [])

/-- The split-accumulate loop of `_split_text`: pieces shorter than the chunk
size collect into `good` and are merged; oversized pieces flush `good` and are
handled by `handleBig` (either appended raw or recursively re-split). -/
def splitLoop (cs co : Nat) (mergeSep : List Char)
    (handleBig : List Char → List (List Char)) :
    List (List Char) → List (List Char) → List (List Char)
  | [], good => if good.isEmpty then [] else mergeSplits cs co mergeSep good
  | s :: ss, good =>
    if s.length < cs then
      splitLoop cs co mergeSep handleBig ss (good ++ [s])
    else
      (if good.isEmpty then [] else mergeSplits cs co mergeSep good) ++
        handleBig s ++ splitLoop cs co mergeSep handleBig ss []

/-- `RecursiveCharacterTextSplitter._split_text(text, separators)`.  The fuel
is an upper bound on recursion depth; every recursive call passes a strictly
shorter separator list, so any fuel of at least `seps.length` is faithful. -/
def splitTextFuel (cs co : Nat) (keep : Bool) :
    Nat → List (List Char) → List Char → List (List Char)
  | 0, _, _ => []
  | fuel + 1, seps, text =>
    let pick := chooseSep seps text
    let splits := splitTextWithSep pick.1 keep text
    let mergeSep := if keep then ([] : List Char) else pick.1
    splitLoop cs co mergeSep
      (fun s => if pick.2.isEmpty then [s] else splitTextFuel cs co keep fuel pick.2 s)
      splits []

/-- The separator list configured at `function_app.py:51`. -/
def SEPARATORS : List (List Char) := [['\n', '\n'], ['\n'], [' '], []]

/-- `text_splitter.split_text(content)` with the configuration of
`function_app.py:47-52`. -/
def split_text (text : List Char) : List (List Char) :=
  splitTextFuel 1000 200 true SEPARATORS.length SEPARATORS text

/-! ## JSON values, HTTP responses, Python exceptions

Response bodies built with `json.dumps(x)` are modelled as the JSON value
`x` itself (constructor `Body.json`); the one body passed as a plain Python
string (`function_app.py:42`) is `Body.text`.  Floats are modelled as exact
rationals. -/

inductive Json where
  | str (s : String)
  | num (q : ℚ)
  | obj (fields : List (String × Json))
  | arr (elems : List Json)
deriving Repr

inductive Body where
  | text (s : String)
  | json (j : Json)
deriving Repr

/-- `azure.functions.HttpResponse`: the default status code is 200 and the
default mimetype is not `application/json`. -/
structure HttpResponse where
  status : Nat
  body : Body
  mimetype : Option String
deriving Repr

/-- A Python exception as observed by the handlers: `str(e)`,
`type(e).__name__` and `str(e.__traceback__)` (the raw traceback object's
string representation, which is what `function_app.py:113` serialises). -/
structure PyError where
  msg : String
  typeName : String
  traceRepr : String
deriving Repr

/-- The metadata attached to each chunk at `function_app.py:61-64`. -/
structure ChunkMeta where
  chunk_index : Nat
  upload_date : String
deriving Repr

/-- `langchain.docstore.document.Document` as used at `function_app.py:59`. -/
structure PyDocument where
  page_content : List Char
  metadata : ChunkMeta
deriving Repr

/-- An external side effect performed by a handler: client construction,
vector-store access, or a chat-completion request. -/
inductive ExtCall where
  | initEmbeddings
  | initPinecone
  | listIndexes
  | createIndex
  | addDocuments (docs : List PyDocument)
  | similaritySearch (query : String) (k : Nat)
  | chatCompletion (messages : List (String × String))

/-- What a handler invocation produces: the HTTP response, the external calls
made (in order), and the log lines written (in order). -/
structure HandlerResult where
  resp : HttpResponse
  calls : List ExtCall
  logs : List String

/-! ## Client factories (`function_app.py:15-29`) -/

/-- The LangChain `OpenAIEmbeddings` client (only its key is observable). -/
structure Embeddings where
  api_key : String

/-- The `pinecone.Pinecone` client. -/
structure PineconeClient where
  api_key : String

/-- `initialize_embeddings` (`function_app.py:15-22`): reads
`OPENAI_API_KEY` from the environment (`none` when unset) and raises
`ValueError` when the value is falsy.  `tb` is the traceback representation
the raised exception would carry. -/
def init_embeddings (openaiKey : Option String) (tb : String) :
    Except PyError Embeddings :=
  match openaiKey with
  | none =>
    .error ⟨"OPENAI_API_KEY not found in environment variables", "ValueError", tb⟩
  | some k =>
    if k = "" then
      .error ⟨"OPENAI_API_KEY not found in environment variables", "ValueError", tb⟩
    else .ok ⟨k⟩

/-- `get_pinecone_client` (`function_app.py:24-29`). -/
def get_pinecone_client (pineconeKey : Option String) (tb : String) :
    Except PyError PineconeClient :=
  match pineconeKey with
  | none =>
    .error ⟨"PINECONE_API_KEY not found in environment variables", "ValueError", tb⟩
  | some k =>
    if k = "" then
      .error ⟨"PINECONE_API_KEY not found in environment variables", "ValueError", tb⟩
    else .ok ⟨k⟩

/-! ## process_document (`function_app.py:31-119`) -/

/-- Everything `process_document` consumes from the outside world: the decoded
request body (`Except` models a decoding failure raised inside the `try`),
`str(datetime.now())`, the two environment credentials, a traceback
representation for exceptions the handler itself raises, and the outcomes of
the three Pinecone operations. -/
structure ProcessEnv where
  body : Except PyError (List Char)
  now : String
  openaiKey : Option String
  pineconeKey : Option String
  tb : String
  listIndexes : Except PyError (List String)
  createIndex : Except PyError Unit
  addDocuments : Except PyError Unit

/-- The 500 body built at `function_app.py:110-114`:
`{"error": str(e), "type": type(e).__name__, "trace": str(e.__traceback__)}`. -/
def errorDetails (e : PyError) : Json :=
  .obj [("error", .str e.msg), ("type", .str e.typeName), ("trace", .str e.traceRepr)]

/-- The 500 response of `process_document`'s generic handler
(`function_app.py:108-119`). -/
def pdErrorResp (e : PyError) : HttpResponse :=
  ⟨500, .json (errorDetails e), some "application/json"⟩

/-- The error log line written at `function_app.py:109`. -/
def pdErrLog (e : PyError) : String := "Error processing document: " ++ e.msg

/-- The chunk documents built at `function_app.py:58-67`. -/
def mkDocs (texts : List (List Char)) (now : String) : List PyDocument :=
  texts.enum.map (fun p => ⟨p.2, ⟨p.1, now⟩⟩)

/-- The `process_document` handler (`function_app.py:31-119`). -/
def process_document (env : ProcessEnv) : HandlerResult :=
  let logs0 := ["Process Document function processed a request."]
  match env.body with
  | .error e => ⟨pdErrorResp e, [], logs0 ++ [pdErrLog e]⟩
  | .ok content =>
    let logs1 := logs0 ++ ["Content received: " ++ String.mk (content.take 100)]
    if content.isEmpty then
      ⟨⟨400, .text "No content received", none⟩, [], logs1⟩
    else
      let texts := split_text content
      let docs := mkDocs texts env.now
      match init_embeddings env.openaiKey env.tb with
      | .error e => ⟨pdErrorResp e, [], logs1 ++ [pdErrLog e]⟩
      | .ok _embeddings =>
        match get_pinecone_client env.pineconeKey env.tb with
        | .error e => ⟨pdErrorResp e, [.initEmbeddings], logs1 ++ [pdErrLog e]⟩
        | .ok _pc =>
          match env.listIndexes with
          | .error e =>
            ⟨pdErrorResp e, [.initEmbeddings, .initPinecone, .listIndexes],
              logs1 ++ [pdErrLog e]⟩
          | .ok names =>
            if names.contains "langchain" then
              match env.addDocuments with
              | .error e =>
                ⟨pdErrorResp e,
                  [.initEmbeddings, .initPinecone, .listIndexes, .addDocuments docs],
                  logs1 ++ [pdErrLog e]⟩
              | .ok _ =>
                ⟨⟨200, .json (.obj [("status", .str "success"),
                    ("chunks_processed", .num docs.length)]), some "application/json"⟩,
                  [.initEmbeddings, .initPinecone, .listIndexes, .addDocuments docs],
                  logs1⟩
            else
              match env.createIndex with
              | .error e =>
                ⟨pdErrorResp e,
                  [.initEmbeddings, .initPinecone, .listIndexes, .createIndex],
                  logs1 ++ [pdErrLog e]⟩
              | .ok _ =>
                match env.addDocuments with
                | .error e =>
                  ⟨pdErrorResp e,
                    [.initEmbeddings, .initPinecone, .listIndexes, .createIndex,
                      .addDocuments docs], logs1 ++ [pdErrLog e]⟩
                | .ok _ =>
                  ⟨⟨200, .json (.obj [("status", .str "success"),
                      ("chunks_processed", .num docs.length)]), some "application/json"⟩,
                    [.initEmbeddings, .initPinecone, .listIndexes, .createIndex,
                      .addDocuments docs], logs1⟩

/-! ## get_answer (`function_app.py:121-203`) -/

/-- The parsed JSON request body of `get_answer`: the values of the `query`
and `system_prompt` fields when present.  (The handler only ever reads these
two fields; non-string JSON values are out of scope of the claims.) -/
structure ReqBody where
  query : Option String
  system_prompt : Option String

/-- Everything `get_answer` consumes from the outside world. `reqJson` is the
outcome of `req.get_json()` (an `Except.error` models a body that is not valid
JSON, which raises inside the `try`); `search` is the outcome of
`similarity_search_with_score(query, k=3)` as content/score pairs in retrieval
order; `chat` is the chat-completion message content. -/
structure AnswerEnv where
  reqJson : Except PyError ReqBody
  openaiKey : Option String
  pineconeKey : Option String
  tb : String
  search : Except PyError (List (String × ℚ))
  chat : Except PyError String

/-- The 500 response of `get_answer`'s generic handler
(`function_app.py:197-203`): body `{"error": str(e)}`. -/
def gaErrorResp (e : PyError) : HttpResponse :=
  ⟨500, .json (.obj [("error", .str e.msg)]), some "application/json"⟩

/-- The error log line written at `function_app.py:198`. -/
def gaErrLog (e : PyError) : String := "Error generating answer: " ++ e.msg

/-- The 0.7 threshold of `function_app.py:149`, written with `mkRat` so that
comparisons evaluate by kernel reduction. -/
def THRESHOLD : ℚ := mkRat 7 10

/-- The score filter at `function_app.py:149`:
`[(doc, score) for doc, score in results if score > 0.7]`. -/
def scoreFilter (results : List (String × ℚ)) : List (String × ℚ) :=
  results.filter (fun r => THRESHOLD < r.2)

/-- The context assembly at `function_app.py:164`. -/
def contextOf (kept : List (String × ℚ)) : String :=
  String.intercalate "\n\n" (kept.map (fun r => r.1))

/-- The `similar_docs` JSON array entries at `function_app.py:187-192`. -/
def simDocsJson (kept : List (String × ℚ)) : List Json :=
  kept.map (fun r => Json.obj [("content", .str r.1), ("score", .num r.2)])

/-- The canned no-match answer at `function_app.py:154`. -/
def CANNED_ANSWER : String :=
  "I couldn't find any relevant information to answer your question."

/-- The `get_answer` handler (`function_app.py:121-203`). -/
def get_answer (env : AnswerEnv) : HandlerResult :=
  let logs0 := ["Get Answer function processed a request."]
  match env.reqJson with
  | .error e => ⟨gaErrorResp e, [], logs0 ++ [gaErrLog e]⟩
  | .ok body =>
    let sysPrompt := body.system_prompt.getD "You are an AI assistant."
    match body.query with
    | none =>
      ⟨⟨400, .json (.obj [("error", .str "No query provided")]), some "application/json"⟩,
        [], logs0⟩
    | some q =>
      if q = "" then
        ⟨⟨400, .json (.obj [("error", .str "No query provided")]), some "application/json"⟩,
          [], logs0⟩
      else
        match init_embeddings env.openaiKey env.tb with
        | .error e => ⟨gaErrorResp e, [], logs0 ++ [gaErrLog e]⟩
        | .ok _embeddings =>
          match get_pinecone_client env.pineconeKey env.tb with
          | .error e => ⟨gaErrorResp e, [.initEmbeddings], logs0 ++ [gaErrLog e]⟩
          | .ok _pc =>
            match env.search with
            | .error e =>
              ⟨gaErrorResp e,
                [.initEmbeddings, .initPinecone, .similaritySearch q 3],
                logs0 ++ [gaErrLog e]⟩
            | .ok results =>
              let filtered := scoreFilter results
              if filtered.isEmpty then
                ⟨⟨200, .json (.obj [("answer", .str CANNED_ANSWER),
                    ("metadata", .obj [("query", .str q),
                      ("documents_found", .num results.length)])]),
                    some "application/json"⟩,
                  [.initEmbeddings, .initPinecone, .similaritySearch q 3], logs0⟩
              else
                let context := contextOf filtered
                let messages := [("system", sysPrompt),
                  ("user", "Context:\n" ++ context ++ "\n\nQuestion: " ++ q)]
                match env.chat with
                | .error e =>
                  ⟨gaErrorResp e,
                    [.initEmbeddings, .initPinecone, .similaritySearch q 3,
                      .chatCompletion messages], logs0 ++ [gaErrLog e]⟩
                | .ok content =>
                  ⟨⟨200, .json (.obj [("answer", .str (String.mk (pyStrip content.data))),
                      ("context", .str context),
                      ("similar_docs", .arr (simDocsJson filtered))]),
                      some "application/json"⟩,
                    [.initEmbeddings, .initPinecone, .similaritySearch q 3,
                      .chatCompletion messages], logs0⟩

/-! ## Claim-support definitions -/

/-- Python `needle in hay` on `String`s. -/
def strContains (needle hay : String) : Bool :=
  containsSub needle.data hay.data

/-- The first exception raised along `process_document`'s control flow, if
any: body decoding, the two client factories, `list_indexes`, `create_index`
(taken only when the index is absent) and `add_documents`, in program order. -/
def pdFirstError (env : ProcessEnv) : Option PyError :=
  match env.body with
  | .error e => some e
  | .ok content =>
    if content.isEmpty then none
    else
      match init_embeddings env.openaiKey env.tb with
      | .error e => some e
      | .ok _ =>
        match get_pinecone_client env.pineconeKey env.tb with
        | .error e => some e
        | .ok _ =>
          match env.listIndexes with
          | .error e => some e
          | .ok names =>
            match (if names.contains "langchain" then .ok () else env.createIndex) with
            | .error e => some e
            | .ok _ =>
              match env.addDocuments with
              | .error e => some e
              | .ok _ => none

/-- The sliding windows the merge loop produces on separator-free text:
chunks of 1000 characters starting every 800 characters, the last one running
to the end of the text. -/
def windows (t : List Char) : List (List Char) :=
  if t.length ≤ 1000 then [t]
  else t.take 1000 :: windows (t.drop 800)
termination_by t.length
decreasing_by simp; omega

/-- Reconstruction of a text from chunks: the first chunk in full, every
following chunk with its overlapping prefix (of the given length) removed. -/
def reconWith (chunks : List (List Char)) (ds : List Nat) : List Char :=
  match chunks with
  | [] => []
  | c :: cs => c ++ ((cs.zip ds).map (fun p => p.1.drop p.2)).flatten

/-- Reconstruction with the configured 200-character overlap removed from
every chunk after the first. -/
def reconTail (l : List (List Char)) : List Char :=
  (l.map (fun x => x.drop 200)).flatten

def reconDrop : List (List Char) → List Char
  | [] => []
  | c :: cs => c ++ reconTail cs

/-! ## Claim C3 -/

/-- Claim C3: a `process_document` request whose body decodes to the empty
string returns status 400 and performs zero external calls — no
embedding-client construction, no vector-store access, no upsert. -/
theorem c3_empty_body_no_calls (now : String) (okey pkey : Option String)
    (tb : String) (li : Except PyError (List String)) (ci ad : Except PyError Unit) :
    (process_document ⟨.ok [], now, okey, pkey, tb, li, ci, ad⟩).resp.status = 400 ∧
    (process_document ⟨.ok [], now, okey, pkey, tb, li, ci, ad⟩).calls = [] :=
  ⟨rfl, rfl⟩

/-- Witness for C3 at a fully concrete environment. -/
theorem c3_empty_body_no_calls_witness :
    (process_document ⟨.ok [], "t", some "sk", some "pk", "tb", .ok [], .ok (),
      .ok ()⟩).resp.status = 400 ∧
    (process_document ⟨.ok [], "t", some "sk", some "pk", "tb", .ok [], .ok (),
      .ok ()⟩).calls = [] :=
  c3_empty_body_no_calls "t" (some "sk") (some "pk") "tb" (.ok []) (.ok ()) (.ok ())

/-! ## Claim C8 -/

/-- Claim C8: a `get_answer` request whose JSON body lacks a `query` field
returns status 400 with the JSON body `{"error": "No query provided"}`, and no
external call (embedding, retrieval, or chat completion) is made. -/
theorem c8_missing_query_no_calls (sp : Option String) (okey pkey : Option String)
    (tb : String) (search : Except PyError (List (String × ℚ)))
    (chat : Except PyError String) :
    (get_answer ⟨.ok ⟨none, sp⟩, okey, pkey, tb, search, chat⟩).resp =
      ⟨400, .json (.obj [("error", .str "No query provided")]), some "application/json"⟩ ∧
    (get_answer ⟨.ok ⟨none, sp⟩, okey, pkey, tb, search, chat⟩).calls = [] :=
  ⟨rfl, rfl⟩

/-- Witness for C8 at a fully concrete environment. -/
theorem c8_missing_query_no_calls_witness :
    (get_answer ⟨.ok ⟨none, none⟩, some "sk", some "pk", "tb", .ok [], .ok "a"⟩).resp =
      ⟨400, .json (.obj [("error", .str "No query provided")]), some "application/json"⟩ ∧
    (get_answer ⟨.ok ⟨none, none⟩, some "sk", some "pk", "tb", .ok [], .ok "a"⟩).calls = [] :=
  c8_missing_query_no_calls none (some "sk") (some "pk") "tb" (.ok []) (.ok "a")

/-! ## Claim C6 (corrected) -/

/-- A concrete empty-body `process_document` environment. -/
def pdEmptyEnv : ProcessEnv :=
  ⟨.ok [], "t", some "sk", some "pk", "tb", .ok [], .ok (), .ok ()⟩

/-- Counterexample to claim C6 as stated: `process_document`'s empty-body
validation error is a 400 whose body is the plain string
"No content received" — it is not a JSON body (and the response carries no
JSON mimetype), so not every input-validation error returns a minimal JSON
body. -/
theorem c6_counterexample :
    (process_document pdEmptyEnv).resp.status = 400 ∧
    (process_document pdEmptyEnv).resp.body = .text "No content received" ∧
    (∀ j : Json, (process_document pdEmptyEnv).resp.body ≠ .json j) ∧
    (process_document pdEmptyEnv).resp.mimetype ≠ some "application/json" :=
  ⟨rfl, rfl, fun _ h => Body.noConfusion h, fun h => Option.noConfusion h⟩

/-- Claim C6 as amended: `get_answer`'s missing-query validation error
returns 400 with a minimal JSON body, while `process_document`'s empty-body
validation error returns 400 with the plain-text body "No content received"
(not JSON). -/
theorem c6_amended (sp : Option String) (okey pkey : Option String) (tb : String)
    (search : Except PyError (List (String × ℚ))) (chat : Except PyError String)
    (now : String) (okey' pkey' : Option String) (tb' : String)
    (li : Except PyError (List String)) (ci ad : Except PyError Unit) :
    (get_answer ⟨.ok ⟨none, sp⟩, okey, pkey, tb, search, chat⟩).resp =
      ⟨400, .json (.obj [("error", .str "No query provided")]), some "application/json"⟩ ∧
    (process_document ⟨.ok [], now, okey', pkey', tb', li, ci, ad⟩).resp =
      ⟨400, .text "No content received", none⟩ :=
  ⟨rfl, rfl⟩

/-- Witness for the amended C6 at fully concrete environments. -/
theorem c6_amended_witness :
    (get_answer ⟨.ok ⟨none, none⟩, some "sk", some "pk", "tb", .ok [], .ok "a"⟩).resp =
      ⟨400, .json (.obj [("error", .str "No query provided")]), some "application/json"⟩ ∧
    (process_document pdEmptyEnv).resp = ⟨400, .text "No content received", none⟩ :=
  c6_amended none (some "sk") (some "pk") "tb" (.ok []) (.ok "a") "t" (some "sk")
    (some "pk") "tb" (.ok []) (.ok ()) (.ok ())

/-! ## Claim C2 -/

/-- Claim C2: when no retrieved result scores strictly above 0.7 (including
the zero-results case), `get_answer` returns status 200 with the canned
"no relevant information" answer, metadata echoing the original query and the
unfiltered retrieved count, and no chat-completion call is made. -/
theorem c2_no_relevant_info (q : String) (sp : Option String) (okey pkey tb : String)
    (results : List (String × ℚ)) (chat : Except PyError String)
    (hok : okey ≠ "") (hpk : pkey ≠ "") (hq : q ≠ "")
    (hfil : scoreFilter results = []) :
    (get_answer ⟨.ok ⟨some q, sp⟩, some okey, some pkey, tb, .ok results, chat⟩).resp =
      ⟨200, .json (.obj [("answer", .str CANNED_ANSWER),
        ("metadata", .obj [("query", .str q),
          ("documents_found", .num results.length)])]), some "application/json"⟩ ∧
    (∀ ms, ExtCall.chatCompletion ms ∉
      (get_answer ⟨.ok ⟨some q, sp⟩, some okey, some pkey, tb, .ok results, chat⟩).calls) := by
  unfold get_answer init_embeddings get_pinecone_client
  simp [hok, hpk, hq, hfil]

/-- Witness for C2: three mocked results all scoring at most 0.7 (one exactly
at the threshold) yield the canned answer with `documents_found = 3`. -/
theorem c2_no_relevant_info_witness :
    (get_answer ⟨.ok ⟨some "what", none⟩, some "sk", some "pk", "tb",
      .ok [("a", mkRat 6 10), ("b", mkRat 5 10), ("c", mkRat 7 10)], .ok "x"⟩).resp =
      ⟨200, .json (.obj [("answer", .str CANNED_ANSWER),
        ("metadata", .obj [("query", .str "what"),
          ("documents_found", .num 3)])]), some "application/json"⟩ ∧
    (∀ ms, ExtCall.chatCompletion ms ∉
      (get_answer ⟨.ok ⟨some "what", none⟩, some "sk", some "pk", "tb",
        .ok [("a", mkRat 6 10), ("b", mkRat 5 10), ("c", mkRat 7 10)], .ok "x"⟩).calls) :=
  c2_no_relevant_info "what" none "sk" "pk" "tb"
    [("a", mkRat 6 10), ("b", mkRat 5 10), ("c", mkRat 7 10)] (.ok "x")
    (by decide) (by decide) (by decide) (by decide)

/-! ## Claim C1 -/

/-- Claim C1: on the successful answer path, exactly the retrieved results
with similarity score strictly greater than 0.7 are kept, in retrieval order:
the context string is assembled from precisely the kept contents and
`similar_docs` is precisely the kept `{content, score}` pairs, while any
result scoring at most 0.7 contributes no `{content, score}` entry to
`similar_docs`. -/
theorem c1_threshold_filtering (q : String) (sp : Option String)
    (okey pkey tb : String) (results : List (String × ℚ)) (content : String)
    (hok : okey ≠ "") (hpk : pkey ≠ "") (hq : q ≠ "")
    (hfil : scoreFilter results ≠ []) :
    (get_answer ⟨.ok ⟨some q, sp⟩, some okey, some pkey, tb, .ok results,
      .ok content⟩).resp =
      ⟨200, .json (.obj [("answer", .str (String.mk (pyStrip content.data))),
        ("context", .str (contextOf (scoreFilter results))),
        ("similar_docs", .arr (simDocsJson (scoreFilter results)))]),
        some "application/json"⟩ ∧
    (∀ r ∈ results, ¬ (THRESHOLD < r.2) →
      Json.obj [("content", .str r.1), ("score", .num r.2)] ∉
        simDocsJson (scoreFilter results)) := by
  constructor
  · unfold get_answer init_embeddings get_pinecone_client
    simp [hok, hpk, hq, List.isEmpty_iff, hfil, contextOf, simDocsJson]
  · intro r _hr hle hmem
    simp only [simDocsJson, scoreFilter, List.mem_map, List.mem_filter] at hmem
    obtain ⟨r', ⟨_hr', hgt⟩, heq⟩ := hmem
    simp only [Json.obj.injEq, List.cons.injEq, Prod.mk.injEq, Json.str.injEq,
      Json.num.injEq, and_true] at heq
    exact hle (heq.2.2 ▸ of_decide_eq_true hgt)

/-- Witness for C1 at the mocked retrieval scores [0.9, 0.75, 0.6]: only the
first two results appear in `similar_docs`, and the third result's content
does not occur in the context string. -/
theorem c1_threshold_filtering_witness :
    (get_answer ⟨.ok ⟨some "what", none⟩, some "sk", some "pk", "tb",
      .ok [("doc one", mkRat 9 10), ("doc two", mkRat 75 100), ("doc three", mkRat 6 10)],
      .ok "An answer."⟩).resp =
      ⟨200, .json (.obj [("answer", .str "An answer."),
        ("context", .str "doc one\n\ndoc two"),
        ("similar_docs", .arr
          [.obj [("content", .str "doc one"), ("score", .num (mkRat 9 10))],
           .obj [("content", .str "doc two"), ("score", .num (mkRat 75 100))]])]),
        some "application/json"⟩ ∧
    strContains "doc three" "doc one\n\ndoc two" = false := by
  constructor
  · have h := (c1_threshold_filtering "what" none "sk" "pk" "tb"
      [("doc one", mkRat 9 10), ("doc two", mkRat 75 100), ("doc three", mkRat 6 10)]
      "An answer." (by decide) (by decide) (by decide) (by decide)).1
    rw [h]
    rfl
  · decide

/-! ## Claim C10 -/

/-- Claim C10: a `get_answer` request whose body is not valid JSON (including
an empty body) makes `req.get_json()` raise inside the `try` block, so the
handler returns status 500 with body `{"error": ...}`, not 400; a 400 response
can only arise from a well-formed JSON body whose `query` value is missing or
falsy. -/
theorem c10_invalid_json_500 :
    (∀ (okey pkey : Option String) (tb : String)
      (search : Except PyError (List (String × ℚ))) (chat : Except PyError String)
      (e : PyError),
      (get_answer ⟨.error e, okey, pkey, tb, search, chat⟩).resp =
        ⟨500, .json (.obj [("error", .str e.msg)]), some "application/json"⟩) ∧
    (∀ env : AnswerEnv, (get_answer env).resp.status = 400 →
      ∃ b, env.reqJson = .ok b ∧ (b.query = none ∨ b.query = some "")) := by
  constructor
  · intro okey pkey tb search chat e
    rfl
  · intro env h400
    obtain ⟨rq, okey, pkey, tb, search, chat⟩ := env
    cases rq with
    | error e => exact absurd h400 (by simp [get_answer, gaErrorResp])
    | ok b =>
      refine ⟨b, rfl, ?_⟩
      cases hq : b.query with
      | none => exact Or.inl rfl
      | some q =>
        by_cases hqe : q = ""
        · exact Or.inr (by rw [hqe])
        · exfalso
          simp only [get_answer, hq] at h400
          rw [if_neg hqe] at h400
          cases h1 : init_embeddings okey tb with
          | error e => simp [h1, gaErrorResp] at h400
          | ok emb =>
            rw [h1] at h400
            cases h2 : get_pinecone_client pkey tb with
            | error e => simp [h2, gaErrorResp] at h400
            | ok pc =>
              rw [h2] at h400
              cases search with
              | error e => simp [gaErrorResp] at h400
              | ok results =>
                simp only [] at h400
                by_cases hf : (scoreFilter results).isEmpty
                · rw [if_pos hf] at h400
                  exact absurd h400 (by simp)
                · rw [if_neg hf] at h400
                  cases chat with
                  | error e => simp [gaErrorResp] at h400
                  | ok content => exact absurd h400 (by simp)

/-- Witness for C10: a concrete parse failure (empty body) yields the 500
`{"error": ...}` response, and a concrete well-formed body with a falsy query
is the only way shown to reach 400. -/
theorem c10_invalid_json_500_witness :
    (get_answer ⟨.error ⟨"Expecting value: line 1 column 1 (char 0)", "ValueError",
      "tbobj"⟩, some "sk", some "pk", "tb", .ok [], .ok "a"⟩).resp =
      ⟨500, .json (.obj [("error",
        .str "Expecting value: line 1 column 1 (char 0)")]), some "application/json"⟩ ∧
    (∃ b, (Except.ok (⟨none, none⟩ : ReqBody) :
        Except PyError ReqBody) = .ok b ∧ (b.query = none ∨ b.query = some "")) := by
  constructor
  · exact c10_invalid_json_500.1 (some "sk") (some "pk") "tb" (.ok []) (.ok "a")
      ⟨"Expecting value: line 1 column 1 (char 0)", "ValueError", "tbobj"⟩
  · exact c10_invalid_json_500.2
      ⟨.ok ⟨none, none⟩, some "sk", some "pk", "tb", .ok [], .ok "a"⟩ rfl

/-! ## Claim C7 -/

/-- Claim C7: whenever an exception is raised inside `process_document`'s
handler logic, the response has status 500 and a JSON body with exactly the
keys `error` (the exception's message), `type` (the exception's type name) and
`trace` (the string representation of the raw traceback object), and the error
is logged (the handler writes the "Error processing document: ..." log line as
it builds the response). -/
theorem c7_exception_500 (env : ProcessEnv) (e : PyError)
    (h : pdFirstError env = some e) :
    (process_document env).resp =
      ⟨500, .json (.obj [("error", .str e.msg), ("type", .str e.typeName),
        ("trace", .str e.traceRepr)]), some "application/json"⟩ ∧
    pdErrLog e ∈ (process_document env).logs := by
  obtain ⟨body, now, okey, pkey, tb, li, ci, ad⟩ := env
  cases body with
  | error e' =>
    simp only [pdFirstError, Option.some.injEq] at h
    subst h
    exact ⟨rfl, by simp [process_document, pdErrLog]⟩
  | ok content =>
    simp only [pdFirstError] at h
    by_cases hc : content.isEmpty
    · rw [if_pos hc] at h; exact absurd h (by simp)
    · rw [if_neg hc] at h
      simp only [process_document]
      rw [if_neg hc]
      cases h1 : init_embeddings okey tb with
      | error e' =>
        rw [h1] at h
        simp only [Option.some.injEq] at h
        subst h
        exact ⟨rfl, by simp [pdErrorResp]⟩
      | ok emb =>
        rw [h1] at h
        cases h2 : get_pinecone_client pkey tb with
        | error e' =>
          rw [h2] at h
          simp only [Option.some.injEq] at h
          subst h
          exact ⟨rfl, by simp [pdErrorResp]⟩
        | ok pc =>
          rw [h2] at h
          cases li with
          | error e' =>
            simp only [Option.some.injEq] at h
            subst h
            exact ⟨rfl, by simp [pdErrorResp]⟩
          | ok names =>
            simp only [] at h ⊢
            by_cases hn : names.contains "langchain"
            · rw [if_pos hn] at h ⊢
              cases ad with
              | error e' =>
                simp only [Option.some.injEq] at h
                subst h
                exact ⟨rfl, by simp [pdErrorResp]⟩
              | ok u => exact absurd h (by simp)
            · rw [if_neg hn] at h ⊢
              cases ci with
              | error e' =>
                simp only [Option.some.injEq] at h
                subst h
                exact ⟨rfl, by simp [pdErrorResp]⟩
              | ok u =>
                cases ad with
                | error e' =>
                  simp only [Option.some.injEq] at h
                  subst h
                  exact ⟨rfl, by simp [pdErrorResp]⟩
                | ok u' => exact absurd h (by simp)

/-- Witness for C7 at a concrete failing upsert. -/
theorem c7_exception_500_witness :
    (process_document ⟨.ok ['H', 'i'], "t", some "sk", some "pk", "tb",
      .ok ["langchain"], .ok (), .error ⟨"boom", "RuntimeError", "tbobj"⟩⟩).resp =
      ⟨500, .json (.obj [("error", .str "boom"), ("type", .str "RuntimeError"),
        ("trace", .str "tbobj")]), some "application/json"⟩ ∧
    pdErrLog ⟨"boom", "RuntimeError", "tbobj"⟩ ∈
      (process_document ⟨.ok ['H', 'i'], "t", some "sk", some "pk", "tb",
        .ok ["langchain"], .ok (), .error ⟨"boom", "RuntimeError", "tbobj"⟩⟩).logs :=
  c7_exception_500
    ⟨.ok ['H', 'i'], "t", some "sk", some "pk", "tb", .ok ["langchain"], .ok (),
      .error ⟨"boom", "RuntimeError", "tbobj"⟩⟩
    ⟨"boom", "RuntimeError", "tbobj"⟩ rfl

/-! ## Claim C9 -/

/-- Claim C9: on successful ingestion of a non-empty document, the upserted
chunk documents carry `chunk_index` metadata equal to their 0-based split
positions (0 through n-1, no gaps or duplicates) and the `upload_date`
timestamp string, and the 200 response body is
`{"status": "success", "chunks_processed": n}` with n the number of upserted
chunks. -/
theorem c9_success_chunk_metadata (content : List Char) (now : String)
    (okey pkey tb : String) (names : List String) (ci : Except PyError Unit)
    (hc : content ≠ []) (hok : okey ≠ "") (hpk : pkey ≠ "")
    (hci : names.contains "langchain" = true ∨ ci = .ok ()) :
    ExtCall.addDocuments (mkDocs (split_text content) now) ∈
      (process_document ⟨.ok content, now, some okey, some pkey, tb, .ok names, ci,
        .ok ()⟩).calls ∧
    (mkDocs (split_text content) now).map (fun d => d.metadata.chunk_index) =
      List.range (mkDocs (split_text content) now).length ∧
    (∀ d ∈ mkDocs (split_text content) now, d.metadata.upload_date = now) ∧
    (process_document ⟨.ok content, now, some okey, some pkey, tb, .ok names, ci,
      .ok ()⟩).resp =
      ⟨200, .json (.obj [("status", .str "success"),
        ("chunks_processed", .num (mkDocs (split_text content) now).length)]),
        some "application/json"⟩ := by
  have hce : content.isEmpty = false := by
    simpa [List.isEmpty_iff] using hc
  refine ⟨?_, ?_, ?_, ?_⟩
  · unfold process_document init_embeddings get_pinecone_client
    rcases hci with hn | hciok
    · have hn' : "langchain" ∈ names := by simpa using hn
      simp [hce, hok, hpk, hn']
    · subst hciok
      by_cases hn' : "langchain" ∈ names <;> simp [hce, hok, hpk, hn']
  · simp only [mkDocs, List.map_map]
    have : ((fun d : PyDocument => d.metadata.chunk_index) ∘
        fun p : Nat × List Char => (⟨p.2, ⟨p.1, now⟩⟩ : PyDocument)) =
        fun p : Nat × List Char => p.1 := rfl
    rw [this, List.length_map, List.enum_length, ← List.enum_map_fst (split_text content)]
  · intro d hd
    simp only [mkDocs, List.mem_map] at hd
    obtain ⟨p, _, rfl⟩ := hd
    rfl
  · unfold process_document init_embeddings get_pinecone_client
    rcases hci with hn | hciok
    · have hn' : "langchain" ∈ names := by simpa using hn
      simp [hce, hok, hpk, hn']
    · subst hciok
      by_cases hn' : "langchain" ∈ names <;> simp [hce, hok, hpk, hn']

/-- Witness for C9 at a concrete two-character document. -/
theorem c9_success_chunk_metadata_witness :
    ExtCall.addDocuments (mkDocs (split_text ['H', 'i']) "t") ∈
      (process_document ⟨.ok ['H', 'i'], "t", some "sk", some "pk", "tb",
        .ok ["langchain"], .ok (), .ok ()⟩).calls ∧
    (mkDocs (split_text ['H', 'i']) "t").map (fun d => d.metadata.chunk_index) =
      List.range (mkDocs (split_text ['H', 'i']) "t").length ∧
    (∀ d ∈ mkDocs (split_text ['H', 'i']) "t", d.metadata.upload_date = "t") ∧
    (process_document ⟨.ok ['H', 'i'], "t", some "sk", some "pk", "tb",
      .ok ["langchain"], .ok (), .ok ()⟩).resp =
      ⟨200, .json (.obj [("status", .str "success"),
        ("chunks_processed", .num (mkDocs (split_text ['H', 'i']) "t").length)]),
        some "application/json"⟩ :=
  c9_success_chunk_metadata ['H', 'i'] "t" "sk" "pk" "tb" ["langchain"] (.ok ())
    (by decide) (by decide) (by decide) (Or.inl (by decide))

/-! ## Splitter lemmas for whitespace-free text

On text containing no whitespace character, no configured separator occurs,
so the splitter degrades to merging the singleton character list, and the
merge loop produces the sliding `windows`: 1000-character chunks every 800
characters. -/

theorem dropWhile_eq_self_of_forall {p : Char → Bool} {xs : List Char}
    (h : ∀ c ∈ xs, p c = false) : xs.dropWhile p = xs := by
  cases xs with
  | nil => rfl
  | cons c t => simp [List.dropWhile, h c (by simp)]

theorem pyStrip_eq_self {xs : List Char} (h : ∀ c ∈ xs, pyIsSpace c = false) :
    pyStrip xs = xs := by
  unfold pyStrip
  rw [dropWhile_eq_self_of_forall h,
    dropWhile_eq_self_of_forall (fun c hc => h c (List.mem_reverse.mp hc)),
    List.reverse_reverse]

theorem intercalate_nil_eq_flatten (l : List (List Char)) :
    List.intercalate [] l = l.flatten := by
  induction l with
  | nil => rfl
  | cons x t ih =>
    cases t with
    | nil => simp [List.intercalate]
    | cons y t' =>
      unfold List.intercalate at ih ⊢
      rw [List.intersperse_cons_cons]
      simp only [List.flatten_cons, List.nil_append]
      rw [ih]
      simp

theorem flatten_singles (s : List Char) : (singles s).flatten = s := by
  induction s with
  | nil => rfl
  | cons c t ih => simp [singles] at ih ⊢; exact ih

theorem singles_append (a b : List Char) :
    singles (a ++ b) = singles a ++ singles b := by
  simp [singles]

theorem joinDocs_singles {s : List Char} (h : ∀ c ∈ s, pyIsSpace c = false) :
    joinDocs (singles s) [] = if s.isEmpty then none else some s := by
  unfold joinDocs
  rw [intercalate_nil_eq_flatten, flatten_singles, pyStrip_eq_self h]

theorem singles_isEmpty (s : List Char) : (singles s).isEmpty = s.isEmpty := by
  cases s <;> rfl

theorem windows_small {t : List Char} (h : t.length ≤ 1000) : windows t = [t] := by
  unfold windows
  rw [if_pos h]

theorem windows_big {t : List Char} (h : ¬ t.length ≤ 1000) :
    windows t = t.take 1000 :: windows (t.drop 800) := by
  conv_lhs => unfold windows
  rw [if_neg h]

theorem popLoop_singles :
    ∀ (s : List Char) (total : Nat), total = s.length → 200 ≤ total →
      popLoop 1000 200 0 1 (singles s) total = (singles (s.drop (total - 200)), 200) := by
  intro s
  induction s with
  | nil =>
    intro total hlen hge
    rw [hlen] at hge
    simp at hge
  | cons c t ih =>
    intro total hlen hge
    have hlen' : total = t.length + 1 := by simpa using hlen
    have h1 : singles (c :: t) = [c] :: singles t := rfl
    rw [h1]
    simp only [popLoop, List.isEmpty_cons, ite_self, List.length_cons, List.length_nil]
    split
    · rename_i hc
      simp only [Bool.or_eq_true, Bool.and_eq_true, decide_eq_true_eq] at hc
      have h200 : 200 < total := by
        rcases hc with h | ⟨h, _⟩
        · exact h
        · omega
      have harith : total - 200 = (total - 1 - 200) + 1 := by omega
      have hsub : total - (0 + 1 + 0) = total - 1 := by omega
      rw [hsub, ih (total - 1) (by omega) (by omega), harith, List.drop_succ_cons]
    · rename_i hc
      simp only [Bool.or_eq_true, Bool.and_eq_true, decide_eq_true_eq, not_or,
        not_and, gt_iff_lt, not_lt] at hc
      have h200 : total = 200 := by omega
      subst h200
      simp [h1]

theorem drop_append_of_le {n : Nat} {l₁ l₂ : List Char} (h : n ≤ l₁.length) :
    (l₁ ++ l₂).drop n = l₁.drop n ++ l₂ := by
  conv_lhs => rw [← List.take_append_drop n l₁, List.append_assoc]
  rw [show ((l₁.take n ++ (l₁.drop n ++ l₂)).drop n) =
    ((l₁.take n ++ (l₁.drop n ++ l₂)).drop (l₁.take n).length) from by
      rw [List.length_take, Nat.min_eq_left h]]
  rw [List.drop_left]

theorem mergeLoop_windows :
    ∀ (rest s : List Char) (docs : List (List Char)),
      (∀ c ∈ s, pyIsSpace c = false) → (∀ c ∈ rest, pyIsSpace c = false) →
      0 < s.length → s.length ≤ 1000 →
      mergeLoop 1000 200 [] (singles rest) docs (singles s) s.length =
        docs ++ windows (s ++ rest) := by
  intro rest
  induction rest with
  | nil =>
    intro s docs hs _ hpos hle
    have hne : s.isEmpty = false := by
      cases s with
      | nil => simp at hpos
      | cons a b => rfl
    show mergeLoop 1000 200 [] [] docs (singles s) s.length = _
    simp [mergeLoop, joinDocs_singles hs, hne, windows_small hle]
  | cons c rest' ih =>
    intro s docs hs hrest hpos hle
    have hne : s.isEmpty = false := by
      cases s with
      | nil => simp at hpos
      | cons a b => rfl
    have hnes : (singles s).isEmpty = false := by rw [singles_isEmpty, hne]
    have hcs : singles (c :: rest') = [c] :: singles rest' := rfl
    have hrest' : ∀ ch ∈ rest', pyIsSpace ch = false :=
      fun ch hch => hrest ch (List.mem_cons_of_mem c hch)
    have hcchar : pyIsSpace c = false := hrest c (List.mem_cons_self c rest')
    rw [hcs]
    simp only [mergeLoop, hnes, Bool.false_eq_true, if_neg, ite_false,
      joinDocs_singles hs, hne, List.length_cons, List.length_nil]
    split
    · -- emission step: s has exactly 1000 characters
      rename_i hcond
      have hslen : s.length = 1000 := by omega
      rw [popLoop_singles s s.length rfl (by omega)]
      have hdl : s.length - 200 = 800 := by omega
      rw [hdl]
      have hcur : singles (s.drop 800) ++ [[c]] = singles (s.drop 800 ++ [c]) := by
        rw [singles_append]
        rfl
      rw [hcur, ite_self]
      have hlen2 : (s.drop 800 ++ [c]).length = 201 := by
        simp [hslen]
      rw [show (200 + 1 + 0 : Nat) = (s.drop 800 ++ [c]).length from by omega]
      rw [ih (s.drop 800 ++ [c]) (docs ++ [s])
        (fun ch hch => by
          rcases List.mem_append.mp hch with h | h
          · exact hs ch (List.drop_subset 800 s h)
          · rw [List.mem_singleton.mp h]; exact hcchar)
        hrest' (by omega) (by omega)]
      rw [windows_big (t := s ++ c :: rest') (by simp [hslen])]
      rw [show (1000 : Nat) = s.length from hslen.symm, List.take_left]
      rw [drop_append_of_le (by omega)]
      simp [hslen]
    · -- accumulation step: s grows by one character
      rename_i hcond
      have hslt : s.length + 1 ≤ 1000 := by omega
      have hcur : singles s ++ [[c]] = singles (s ++ [c]) := by
        rw [singles_append]
        rfl
      rw [hcur, ite_self]
      rw [show (s.length + 1 + 0 : Nat) = (s ++ [c]).length from by simp]
      rw [ih (s ++ [c]) docs
        (fun ch hch => by
          rcases List.mem_append.mp hch with h | h
          · exact hs ch h
          · rw [List.mem_singleton.mp h]; exact hcchar)
        hrest' (by simp) (by simpa using hslt)]
      rw [List.append_assoc]
      rfl

theorem mergeSplits_nil : mergeSplits 1000 200 [] [] = [] := rfl

theorem splitLoop_all_small (msep : List Char) (hb : List Char → List (List Char)) :
    ∀ (l good : List (List Char)), (∀ s ∈ l, s.length < 1000) →
      splitLoop 1000 200 msep hb l good = mergeSplits 1000 200 msep (good ++ l) := by
  intro l
  induction l with
  | nil =>
    intro good _
    simp only [splitLoop, List.append_nil]
    by_cases hg : good.isEmpty
    · rw [if_pos hg, List.isEmpty_iff.mp hg]
      rfl
    · rw [if_neg hg]
  | cons s ss ihl =>
    intro good hsmall
    simp only [splitLoop]
    rw [if_pos (hsmall s (List.mem_cons_self s ss))]
    rw [ihl (good ++ [s]) (fun x hx => hsmall x (List.mem_cons_of_mem s hx))]
    rw [List.append_assoc]
    rfl

theorem containsSub_eq_false {c : Char} (n : List Char) :
    ∀ {hay : List Char}, c ∉ hay → containsSub (c :: n) hay = false := by
  intro hay
  induction hay with
  | nil => intro _; rfl
  | cons x t iht =>
    intro h
    have hcx : ¬ (c = x) := fun he => h (by rw [he]; exact List.mem_cons_self x t)
    have hct : c ∉ t := fun hm => h (List.mem_cons_of_mem x hm)
    simp only [containsSub, iht hct, Bool.or_false, List.isPrefixOf]
    simp [hcx]

/-- On non-empty whitespace-free text no configured separator occurs, so the
splitter reduces to merging the character singletons, which yields exactly the
sliding `windows`. -/
theorem split_text_eq_windows {t : List Char} (hne : t ≠ [])
    (h : ∀ c ∈ t, pyIsSpace c = false) : split_text t = windows t := by
  have hn : ('\n') ∉ t := fun hm => by simpa [pyIsSpace] using h '\n' hm
  have hsp : (' ') ∉ t := fun hm => by simpa [pyIsSpace] using h ' ' hm
  have h1 : containsSub ['\n', '\n'] t = false := containsSub_eq_false _ hn
  have h2 : containsSub ['\n'] t = false := containsSub_eq_false _ hn
  have h3 : containsSub [' '] t = false := containsSub_eq_false _ hsp
  have hpick : chooseSep SEPARATORS t = ([], []) := by
    simp [chooseSep, chooseSepAux, SEPARATORS, h1, h2, h3]
  have hsplits : splitTextWithSep [] true t = singles t := by
    unfold splitTextWithSep
    simp only [List.isEmpty_nil, if_true]
    rw [List.filter_eq_self.mpr]
    intro a ha
    simp only [singles, List.mem_map] at ha
    obtain ⟨ch, _, rfl⟩ := ha
    rfl
  show splitTextFuel 1000 200 true 4 SEPARATORS t = windows t
  simp only [splitTextFuel, hpick, hsplits, List.isEmpty_nil, if_true]
  rw [splitLoop_all_small]
  · obtain ⟨c, t', rfl⟩ := List.exists_cons_of_ne_nil hne
    have hsc : singles (c :: t') = [c] :: singles t' := rfl
    rw [List.nil_append, hsc]
    unfold mergeSplits
    simp only [mergeLoop, List.isEmpty_nil, ite_self, List.length_cons,
      List.length_nil, List.nil_append, twoOrMore]
    rw [if_neg (by omega)]
    have happ : ([[c]] : List (List Char)) = singles [c] := rfl
    rw [happ]
    rw [show (0 + (0 + 1) + 0 : Nat) = ([c] : List Char).length from rfl]
    rw [mergeLoop_windows t' [c] []
      (fun ch hch => by rw [List.mem_singleton.mp hch]; exact h c (List.mem_cons_self c t'))
      (fun ch hch => h ch (List.mem_cons_of_mem c hch))
      (by simp) (by simp)]
    simp
  · intro s hs
    simp only [singles, List.mem_map] at hs
    obtain ⟨ch, _, rfl⟩ := hs
    simp

theorem reconDrop_windows : ∀ (n : Nat) (t : List Char), t.length ≤ n → t ≠ [] →
    reconDrop (windows t) = t := by
  intro n
  induction n with
  | zero =>
    intro t hlen hne
    cases t with
    | nil => exact absurd rfl hne
    | cons a b => simp at hlen
  | succ n ihn =>
    intro t hlen hne
    by_cases hle : t.length ≤ 1000
    · rw [windows_small hle]
      simp [reconDrop, reconTail]
    · rw [windows_big hle]
      have hdne : t.drop 800 ≠ [] := by
        intro h0
        have := congrArg List.length h0
        simp at this
        omega
      have hdlen : (t.drop 800).length ≤ n := by
        rw [List.length_drop]
        omega
      have ihdrop := ihn (t.drop 800) hdlen hdne
      by_cases hd : (t.drop 800).length ≤ 1000
      · rw [windows_small hd]
        simp only [reconDrop, reconTail, List.map_cons, List.map_nil,
          List.flatten_cons, List.flatten_nil, List.append_nil]
        rw [List.drop_drop]
        rw [show (200 + 800 : Nat) = 1000 from rfl]
        exact List.take_append_drop 1000 t
      · rw [windows_big hd] at ihdrop ⊢
        simp only [reconDrop, reconTail, List.map_cons, List.flatten_cons] at ihdrop ⊢
        have hX : ((windows ((t.drop 800).drop 800)).map
            (fun x => x.drop 200)).flatten = (t.drop 800).drop 1000 :=
          List.append_cancel_left
            (ihdrop.trans (List.take_append_drop 1000 (t.drop 800)).symm)
        rw [hX, List.drop_take, List.drop_drop, List.drop_drop]
        rw [show (200 + 800 : Nat) = 1000 from rfl,
          show (1000 + 800 : Nat) = 1800 from rfl,
          show (1000 - 200 : Nat) = 800 from rfl]
        rw [show (1800 : Nat) = 1000 + 800 from rfl, ← List.drop_drop,
          List.take_append_drop, List.take_append_drop]

theorem zip_replicate_drop :
    ∀ cs : List (List Char),
      ((cs.zip (List.replicate cs.length 200)).map (fun p => p.1.drop p.2)) =
        cs.map (fun x => x.drop 200) := by
  intro cs
  induction cs with
  | nil => rfl
  | cons x xs ih =>
    simp only [List.length_cons, List.replicate_succ, List.zip_cons_cons,
      List.map_cons, ih]

theorem reconWith_replicate (l : List (List Char)) :
    reconWith l (List.replicate (l.length - 1) 200) = reconDrop l := by
  cases l with
  | nil => rfl
  | cons c cs =>
    simp only [reconWith, reconDrop, reconTail, List.length_cons,
      Nat.add_sub_cancel, zip_replicate_drop]

/-! ## Claim C4 -/

/-- The fully-successful `process_document` run on a non-empty body when the
index already exists. -/
theorem pd_success_result (content : List Char) (now okey pkey tb : String)
    (names : List String) (hc : content.isEmpty = false) (hok : okey ≠ "")
    (hpk : pkey ≠ "") (hn : names.contains "langchain" = true) :
    process_document ⟨.ok content, now, some okey, some pkey, tb, .ok names,
      .ok (), .ok ()⟩ =
      ⟨⟨200, .json (.obj [("status", .str "success"),
          ("chunks_processed", .num (mkDocs (split_text content) now).length)]),
        some "application/json"⟩,
       [.initEmbeddings, .initPinecone, .listIndexes,
        .addDocuments (mkDocs (split_text content) now)],
       ["Process Document function processed a request.",
        "Content received: " ++ String.mk (content.take 100)]⟩ := by
  have hn' : "langchain" ∈ names := by simpa using hn
  unfold process_document init_embeddings get_pinecone_client
  simp [hc, hok, hpk, hn']

/-- The chunks of the 1500-character document `"A" * 1500`: a 1000-character
chunk and a 700-character chunk (the second window starts at position 800). -/
theorem split_text_1500A :
    split_text (List.replicate 1500 'A') =
      [List.replicate 1000 'A', List.replicate 700 'A'] := by
  have hne15 : List.replicate 1500 'A' ≠ [] := by
    intro h
    have hlen := congrArg List.length h
    rw [List.length_replicate] at hlen
    exact absurd hlen (by norm_num)
  have hns : ∀ c ∈ List.replicate 1500 'A', pyIsSpace c = false := by
    intro c hc
    rw [List.eq_of_mem_replicate hc]
    rfl
  rw [split_text_eq_windows hne15 hns]
  rw [windows_big (by rw [List.length_replicate]; omega)]
  rw [List.drop_replicate, List.take_replicate]
  norm_num
  rw [windows_small (by rw [List.length_replicate]; omega)]

/-- A concrete successful ingestion environment whose body is `"A" * 1500`. -/
def c4Env : ProcessEnv :=
  ⟨.ok (List.replicate 1500 'A'), "2024-01-01 00:00:00", some "sk", some "pk",
    "tb", .ok ["langchain"], .ok (), .ok ()⟩

/-- Claim C4: ingesting the 1500-character document `"A" * 1500` produces
exactly 2 chunks with `chunk_index` 0 and 1 under the 1000/200 split
parameters, and the success response body is
`{"status": "success", "chunks_processed": 2}`. -/
theorem c4_two_chunks_1500A :
    ExtCall.addDocuments
      [⟨List.replicate 1000 'A', ⟨0, "2024-01-01 00:00:00"⟩⟩,
       ⟨List.replicate 700 'A', ⟨1, "2024-01-01 00:00:00"⟩⟩] ∈
      (process_document c4Env).calls ∧
    (process_document c4Env).resp =
      ⟨200, .json (.obj [("status", .str "success"),
        ("chunks_processed", .num 2)]), some "application/json"⟩ := by
  have hne : (List.replicate 1500 'A').isEmpty = false := by
    rw [List.isEmpty_eq_false_iff_exists_mem]
    exact ⟨'A', List.mem_replicate.mpr (by norm_num)⟩
  have h := pd_success_result (List.replicate 1500 'A') "2024-01-01 00:00:00"
    "sk" "pk" "tb" ["langchain"] hne (by decide) (by decide) (by decide)
  have hdocs : mkDocs (split_text (List.replicate 1500 'A')) "2024-01-01 00:00:00" =
      [⟨List.replicate 1000 'A', ⟨0, "2024-01-01 00:00:00"⟩⟩,
       ⟨List.replicate 700 'A', ⟨1, "2024-01-01 00:00:00"⟩⟩] := by
    rw [split_text_1500A]
    rfl
  rw [hdocs] at h
  constructor
  · show ExtCall.addDocuments _ ∈ (process_document ⟨.ok (List.replicate 1500 'A'),
      "2024-01-01 00:00:00", some "sk", some "pk", "tb", .ok ["langchain"],
      .ok (), .ok ()⟩).calls
    rw [h]
    exact List.mem_cons_of_mem _ (List.mem_cons_of_mem _
      (List.mem_cons_of_mem _ (List.mem_cons_self _ _)))
  · show (process_document ⟨.ok (List.replicate 1500 'A'),
      "2024-01-01 00:00:00", some "sk", some "pk", "tb", .ok ["langchain"],
      .ok (), .ok ()⟩).resp = _
    rw [h]
    norm_num

/-! ## Claim C5 (corrected) -/

/-- Counterexample to claim C5 as stated: the non-empty input `" "` (one
space) yields zero chunks — the splitter's whitespace stripping turns the only
candidate chunk into `None` — so no removal of overlapping prefixes can
reconstruct the original text. -/
theorem c5_counterexample :
    ([' '] : List Char) ≠ [] ∧
    split_text [' '] = [] ∧
    ¬ ∃ ds : List Nat, reconWith (split_text [' ']) ds = [' '] := by
  refine ⟨by decide, by decide, ?_⟩
  rintro ⟨ds, h⟩
  rw [show split_text [' '] = [] from by decide] at h
  exact absurd h (by simp [reconWith])

/-- Claim C5 as amended: the chunk sequence (hence the chunk count) upserted
by `process_document` is a deterministic function of the input text alone, and
for non-empty inputs free of Python (Unicode) whitespace (on which the
splitter neither selects a separator nor strips anything) concatenating the
chunks in `chunk_index` order with the 200-character overlapping prefixes
removed reproduces the original text exactly; for inputs with whitespace at
chunk boundaries the reconstruction can lose characters (see the
whitespace-only counterexample). -/
theorem c5_amended :
    (∀ (env : ProcessEnv) (content : List Char) (docs : List PyDocument),
      env.body = .ok content →
      ExtCall.addDocuments docs ∈ (process_document env).calls →
      docs.map (fun d => d.page_content) = split_text content) ∧
    (∀ t : List Char, t ≠ [] → (∀ c ∈ t, pyIsSpace c = false) →
      reconWith (split_text t)
        (List.replicate ((split_text t).length - 1) 200) = t) := by
  constructor
  · intro env content docs hbody hmem
    obtain ⟨body, now, okey, pkey, tb, li, ci, ad⟩ := env
    simp only at hbody
    subst hbody
    have hdocs : docs = mkDocs (split_text content) now →
        docs.map (fun d => d.page_content) = split_text content := by
      rintro rfl
      simp only [mkDocs, List.map_map]
      have hcomp : ((fun d : PyDocument => d.page_content) ∘
          fun p : Nat × List Char => (⟨p.2, ⟨p.1, now⟩⟩ : PyDocument)) =
          fun p : Nat × List Char => p.2 := rfl
      rw [hcomp, List.enum_map_snd]
    simp only [process_document] at hmem
    by_cases hc : content.isEmpty
    · rw [if_pos hc] at hmem
      simp at hmem
    · rw [if_neg hc] at hmem
      cases h1 : init_embeddings okey tb with
      | error e =>
        rw [h1] at hmem
        simp at hmem
      | ok emb =>
        rw [h1] at hmem
        cases h2 : get_pinecone_client pkey tb with
        | error e =>
          rw [h2] at hmem
          simp at hmem
        | ok pc =>
          rw [h2] at hmem
          cases li with
          | error e => simp at hmem
          | ok names =>
            simp only [] at hmem
            by_cases hn : names.contains "langchain"
            · rw [if_pos hn] at hmem
              cases ad with
              | error e =>
                simp at hmem
                exact hdocs hmem
              | ok u =>
                simp at hmem
                exact hdocs hmem
            · rw [if_neg hn] at hmem
              cases ci with
              | error e => simp at hmem
              | ok u =>
                cases ad with
                | error e =>
                  simp at hmem
                  exact hdocs hmem
                | ok u2 =>
                  simp at hmem
                  exact hdocs hmem
  · intro t hne hns
    rw [reconWith_replicate, split_text_eq_windows hne hns,
      reconDrop_windows t.length t (le_refl _) hne]

/-- Witness for the amended C5: a concrete upsert whose chunk list equals
`split_text` of the content, and a concrete whitespace-free reconstruction. -/
theorem c5_amended_witness :
    (mkDocs (split_text ['H', 'i']) "t").map (fun d => d.page_content) =
      split_text ['H', 'i'] ∧
    reconWith (split_text ['B'])
      (List.replicate ((split_text ['B']).length - 1) 200) = ['B'] := by
  constructor
  · exact c5_amended.1
      ⟨.ok ['H', 'i'], "t", some "sk", some "pk", "tb", .ok ["langchain"], .ok (),
        .ok ()⟩ ['H', 'i'] (mkDocs (split_text ['H', 'i']) "t") rfl
      (by
        show ExtCall.addDocuments _ ∈ (process_document
          ⟨.ok ['H', 'i'], "t", some "sk", some "pk", "tb", .ok ["langchain"],
            .ok (), .ok ()⟩).calls
        exact List.mem_cons_of_mem _ (List.mem_cons_of_mem _
          (List.mem_cons_of_mem _ (List.mem_cons_self _ _))))
  · exact c5_amended.2 ['B'] (by decide) (by decide)

end LangChainAF
